/-
Verification of the phase-determination and sampling logic of the
EngComp6_energy notebook `1_Properties.ipynb`.

The notebook's own logic (as opposed to the external Cantera property
library) consists of:
  * phase determination by comparing a specific volume v against the
    saturated-liquid and saturated-vapor specific volumes (v_f, v_g)
    ("Determining Phase from Thermodynamic State" cells, parts a/b/c);
  * the quality formula x = (v - vf)/(vg - vf) (part c cell);
  * sampling loops that set two properties and read one back per sample;
  * the Tv_vapor_dome grid np.linspace(15+273.15, 0.9999*Tcrit);
  * isobar-plotting loops that pre-fill the output with NaN and break at
    the first sample whose temperature exceeds a cutoff.

Real-valued properties are embedded as rationals; a NaN slot in a numpy
array is embedded as `none : Option ℚ`; an uncaught Python exception in a
loop is embedded as `none` propagating through `Option`.
-/
import Mathlib

/-- Phase labels used by the notebook's phase-determination section.
A two-phase mixture carries its quality.  `supercritical` is a label used
by no notebook cell; it is included so that the spec's classification rule
for T > T_crit can be stated and compared against the notebook's. -/
inductive Phase where
  | compressedLiquid
  | saturatedLiquid
  | mixture (x : ℚ)
  | saturatedVapor
  | superheatedVapor
  | supercritical
  deriving DecidableEq, Repr

/-- Quality of a two-phase state, from the part-c cell:
`x = (v-vf)/(vg-vf)`. -/
def quality (v vf vg : ℚ) : ℚ := (v - vf) / (vg - vf)

/-- Phase determination from specific volume against the saturation
envelope, as carried out in the notebook's parts a, b, c: compressed
liquid when `v < vf`, superheated vapor when `v > vg`, a two-phase
mixture with quality `(v-vf)/(vg-vf)` when `vf < v < vg`; the boundary
cases are the saturated liquid (`v = vf`, quality 0) and saturated vapor
(`v = vg`, quality 1) states of the "Saturated liquid-vapor mixtures"
section. -/
def classify (v vf vg : ℚ) : Phase :=
  if v < vf then Phase.compressedLiquid
  else if v = vf then Phase.saturatedLiquid
  else if v < vg then Phase.mixture (quality v vf vg)
  else if v = vg then Phase.saturatedVapor
  else Phase.superheatedVapor

/-- C1: below the critical point (nondegenerate envelope `vf < vg`), the
classifier returns compressed liquid exactly when `v < vf`, saturated
liquid exactly when `v = vf`, a mixture exactly when `vf < v < vg` and
then its quality is `(v - vf)/(vg - vf)`, saturated vapor exactly when
`v = vg`, and superheated vapor exactly when `v > vg`. -/
theorem classify_cases (v vf vg : ℚ) (hfg : vf < vg) :
    (classify v vf vg = Phase.compressedLiquid ↔ v < vf) ∧
    (classify v vf vg = Phase.saturatedLiquid ↔ v = vf) ∧
    (∀ x, classify v vf vg = Phase.mixture x ↔
      (vf < v ∧ v < vg ∧ x = quality v vf vg)) ∧
    (classify v vf vg = Phase.saturatedVapor ↔ v = vg) ∧
    (classify v vf vg = Phase.superheatedVapor ↔ vg < v) := by
  unfold classify
  split_ifs with h1 h2 h3 h4
  · refine ⟨?_, ?_, fun x => ?_, ?_, ?_⟩
    · exact ⟨fun _ => h1, fun _ => rfl⟩
    · exact ⟨fun h => h.elim,
        fun h => by rw [h] at h1; exact absurd h1 (lt_irrefl vf)⟩
    · exact ⟨fun h => h.elim,
        fun h => absurd h1 (not_lt.mpr h.1.le)⟩
    · exact ⟨fun h => h.elim,
        fun h => by rw [h] at h1; exact absurd hfg (not_lt.mpr h1.le)⟩
    · exact ⟨fun h => h.elim,
        fun h => absurd h1 (not_lt.mpr (by linarith))⟩
  · subst h2
    refine ⟨?_, ?_, fun x => ?_, ?_, ?_⟩
    · exact ⟨fun h => h.elim, fun h => absurd h (lt_irrefl v)⟩
    · exact ⟨fun _ => rfl, fun _ => rfl⟩
    · exact ⟨fun h => h.elim, fun h => absurd h.1 (lt_irrefl v)⟩
    · exact ⟨fun h => h.elim,
        fun h => by rw [h] at hfg; exact absurd hfg (lt_irrefl vg)⟩
    · exact ⟨fun h => h.elim,
        fun h => absurd hfg (not_lt.mpr h.le)⟩
  · have hl : vf < v := lt_of_le_of_ne (not_lt.mp h1) (Ne.symm h2)
    refine ⟨?_, ?_, fun x => ?_, ?_, ?_⟩
    · exact ⟨fun h => h.elim, fun h => absurd h h1⟩
    · exact ⟨fun h => h.elim, fun h => absurd h h2⟩
    · exact ⟨fun h => ⟨hl, h3, ((Phase.mixture.injEq _ _).mp h).symm⟩,
        fun h => by rw [h.2.2]⟩
    · exact ⟨fun h => h.elim,
        fun h => by rw [h] at h3; exact absurd h3 (lt_irrefl vg)⟩
    · exact ⟨fun h => h.elim,
        fun h => absurd h3 (not_lt.mpr h.le)⟩
  · subst h4
    refine ⟨?_, ?_, fun x => ?_, ?_, ?_⟩
    · exact ⟨fun h => h.elim, fun h => absurd h h1⟩
    · exact ⟨fun h => h.elim, fun h => absurd h h2⟩
    · exact ⟨fun h => h.elim, fun h => absurd h.2.1 h3⟩
    · exact ⟨fun _ => rfl, fun _ => rfl⟩
    · exact ⟨fun h => h.elim, fun h => absurd h (lt_irrefl v)⟩
  · have hg : vg < v := lt_of_le_of_ne (not_lt.mp h3) (fun h => h4 h.symm)
    refine ⟨?_, ?_, fun x => ?_, ?_, ?_⟩
    · exact ⟨fun h => h.elim, fun h => absurd h h1⟩
    · exact ⟨fun h => h.elim, fun h => absurd h h2⟩
    · exact ⟨fun h => h.elim, fun h => absurd h.2.1 h3⟩
    · exact ⟨fun h => h.elim, fun h => absurd h h4⟩
    · exact ⟨fun _ => hg, fun _ => rfl⟩

/-- Witness for C1: at v = 2, vf = 1, vg = 3 the classifier yields the
two-phase mixture with quality 1/2. -/
theorem classify_cases_witness :
    classify 2 1 3 = Phase.mixture (quality 2 1 3) :=
  (((classify_cases 2 1 3 (by norm_num)).2.2.1 (quality 2 1 3)).mpr
    ⟨by norm_num, by norm_num, rfl⟩)

/-- Position of a phase label along the order in which phases appear as
specific volume increases at fixed pressure on the T-v diagram:
compressed liquid, then the saturation region, then superheated vapor. -/
def Phase.rank : Phase → Nat
  | Phase.compressedLiquid => 0
  | Phase.saturatedLiquid => 1
  | Phase.mixture _ => 2
  | Phase.saturatedVapor => 3
  | Phase.superheatedVapor => 4
  | Phase.supercritical => 5

/-- The rank of a classified state counts how many of the four threshold
conditions vf ≤ v, vf < v, vg ≤ v, vg < v hold. -/
theorem classify_rank_eq (v vf vg : ℚ) (hfg : vf < vg) :
    (classify v vf vg).rank =
      (if vf ≤ v then 1 else 0) + (if vf < v then 1 else 0) +
      (if vg ≤ v then 1 else 0) + (if vg < v then 1 else 0) := by
  rcases lt_trichotomy v vf with h | h | h
  · rw [classify, if_pos h]
    rw [if_neg (not_le.mpr h), if_neg (not_lt.mpr h.le),
      if_neg (not_le.mpr (h.trans hfg)), if_neg (not_lt.mpr (h.trans hfg).le)]
    rfl
  · subst h
    rw [classify, if_neg (lt_irrefl v), if_pos rfl]
    rw [if_pos le_rfl, if_neg (lt_irrefl v), if_neg (not_le.mpr hfg),
      if_neg (not_lt.mpr hfg.le)]
    rfl
  · rcases lt_trichotomy v vg with h2 | h2 | h2
    · rw [classify, if_neg (not_lt.mpr h.le), if_neg (Ne.symm (ne_of_lt h)),
        if_pos h2]
      rw [if_pos h.le, if_pos h, if_neg (not_le.mpr h2),
        if_neg (not_lt.mpr h2.le)]
      rfl
    · subst h2
      rw [classify, if_neg (not_lt.mpr h.le), if_neg (Ne.symm (ne_of_lt h)),
        if_neg (lt_irrefl v), if_pos rfl]
      rw [if_pos h.le, if_pos h, if_pos le_rfl, if_neg (lt_irrefl v)]
      rfl
    · rw [classify, if_neg (not_lt.mpr h.le), if_neg (Ne.symm (ne_of_lt h)),
        if_neg (not_lt.mpr h2.le), if_neg (Ne.symm (ne_of_lt h2))]
      rw [if_pos h.le, if_pos h, if_pos h2.le, if_pos h2]
      rfl

/-- C4: phase classification is monotonic in specific volume at fixed
pressure: with a nondegenerate saturation envelope `vf < vg` (pressure
below critical), if `v1 ≤ v2` then the class of `v2` is at least as far
along the order compressed liquid → saturated mixture → superheated
vapor as the class of `v1`. -/
theorem classify_rank_mono (v1 v2 vf vg : ℚ) (hfg : vf < vg) (h12 : v1 ≤ v2) :
    (classify v1 vf vg).rank ≤ (classify v2 vf vg).rank := by
  rw [classify_rank_eq v1 vf vg hfg, classify_rank_eq v2 vf vg hfg]
  apply add_le_add (add_le_add (add_le_add ?_ ?_) ?_) ?_ <;>
    split_ifs <;> first | rfl | omega | linarith

/-- Witness for C4: at vf = 2, vg = 4, the class of v = 1 (compressed
liquid) is no further along the order than the class of v = 5
(superheated vapor). -/
theorem classify_rank_mono_witness :
    (classify 1 2 4).rank ≤ (classify 5 2 4).rank :=
  classify_rank_mono 1 5 2 4 (by norm_num) (by norm_num)

/-- Phase determination of a state given its temperature, embedded from
the notebook's treatment of state 1 ("state 1 is at a temperature above
the critical temperature ... Thus, it is a superheated vapor"): when
`T > Tcrit` the state is labelled superheated vapor; otherwise it is
classified against the saturation envelope at its temperature. -/
def classifyState (T Tcrit v vf vg : ℚ) : Phase :=
  if Tcrit < T then Phase.superheatedVapor else classify v vf vg

/-- Counterexample to C6: at state 1 of the notebook (T = 773.15 K,
above the critical temperature 647.096 K), the notebook's classification
is superheated vapor, not supercritical. -/
theorem classifyState_not_supercritical :
    classifyState (77315/100) (647096/1000) (175/1000) (1/1000) (19/100)
      ≠ Phase.supercritical := by
  unfold classifyState
  rw [if_pos (by norm_num)]
  exact fun h => Phase.noConfusion h

/-- C6 amended: for every state whose temperature exceeds the critical
temperature, the notebook classifies the state as superheated vapor
regardless of its specific volume (no supercritical label exists in the
notebook). -/
theorem classifyState_above_crit (T Tcrit v vf vg : ℚ) (h : Tcrit < T) :
    classifyState T Tcrit v vf vg = Phase.superheatedVapor := by
  unfold classifyState
  rw [if_pos h]

/-- Witness for C6 amended: at state 1 of the notebook (T = 773.15 K,
critical temperature 647.096 K) the classification is superheated
vapor. -/
theorem classifyState_above_crit_witness :
    classifyState (77315/100) (647096/1000) (175/1000) (1/1000) (19/100)
      = Phase.superheatedVapor :=
  classifyState_above_crit (77315/100) (647096/1000) (175/1000) (1/1000)
    (19/100) (by norm_num)

/-- Modelled from the spec: the Property Provider's volume response to a
(P, x) quality query, which the repository delegates to the external
Cantera library. The spec's testable property section fixes it as
`v(x) = v_f + x (v_g - v_f)`. -/
def v_PX (vf vg x : ℚ) : ℚ := vf + x * (vg - vf)

/-- C2: for every quality x in the closed unit interval and a
nondegenerate envelope `vf < vg` (pressure below critical), the volume
returned for the (P, x) query is `vf + x (vg - vf)`, and recomputing the
quality from that volume with the notebook's formula returns x exactly
(the rational embedding has no floating error, so the tolerance is 0). -/
theorem quality_roundtrip (vf vg x : ℚ) (hx0 : 0 ≤ x) (hx1 : x ≤ 1)
    (hfg : vf < vg) :
    v_PX vf vg x = vf + x * (vg - vf) ∧
    quality (v_PX vf vg x) vf vg = x := by
  refine ⟨rfl, ?_⟩
  unfold quality v_PX
  have hne : vg - vf ≠ 0 := sub_ne_zero.mpr (ne_of_gt hfg)
  field_simp

/-- Witness for C2: at vf = 1, vg = 3, x = 1/2 the round trip returns
1/2. -/
theorem quality_roundtrip_witness :
    v_PX 1 3 (1/2) = 1 + (1/2) * (3 - 1) ∧
    quality (v_PX 1 3 (1/2)) 1 3 = 1/2 :=
  quality_roundtrip 1 3 (1/2) (by norm_num) (by norm_num) (by norm_num)

/-- The T-v sampling loop (`for i in range(T_array.size): w.TP = ...;
v_array[i] = w.v`) with a fallible Property Provider: `provider i` is the
specific volume read back for the i-th sample, `none` when the provider
raises.  The loop body contains no exception handler, so a raise
propagates and the loop produces nothing; this is embedded by the
`Option` short-circuit. -/
def sweepTv (provider : Nat → Option ℚ) : Nat → Option (List ℚ)
  | 0 => some []
  | n + 1 =>
    match sweepTv provider n with
    | none => none
    | some vs =>
      match provider n with
      | none => none
      | some v => some (vs ++ [v])

/-- A provider that fails on sample 0 and converges everywhere else. -/
def failAtZero : Nat → Option ℚ :=
  fun i => if i = 0 then none else some 1

/-- Counterexample to C3: with a provider failing only on sample 0 of a
two-sample sweep, the whole sweep aborts — the other sample, though the
provider converges there, is never produced. -/
theorem sweepTv_abort_cex :
    sweepTv failAtZero 2 = none ∧ failAtZero 1 = some 1 := by
  constructor <;> rfl

/-- C3 amended: the sampling loops install no per-sample failure
handler, so a Property Provider failure on any single sample of a sweep
aborts the whole sweep and no result array is produced. -/
theorem sweepTv_abort (provider : Nat → Option ℚ) (n i : Nat)
    (hi : i < n) (hfail : provider i = none) :
    sweepTv provider n = none := by
  induction n with
  | zero => exact absurd hi (Nat.not_lt_zero i)
  | succ m ih =>
    rcases Nat.lt_succ_iff_lt_or_eq.mp hi with h | h
    · rw [sweepTv, ih h]
    · subst h
      rw [sweepTv, hfail]
      cases sweepTv provider i <;> rfl

/-- Witness for C3 amended: the two-sample sweep with a failure at
sample 0 produces nothing. -/
theorem sweepTv_abort_witness : sweepTv failAtZero 2 = none :=
  sweepTv_abort failAtZero 2 0 (by norm_num) rfl

/-- The State Sampler loop of the T-v diagram cells, embedded with an
explicit query counter: `read t P` is the property read back from the
Property Provider after setting the pair (t, P) on the handle (`w.TP =
T_array[i], P_atm` then `w.v`).  Returns the result list and the number
of provider queries made. -/
def sampleOnce (read : ℚ → ℚ → ℚ) (P : ℚ) : List ℚ → List ℚ × Nat
  | [] => ([], 0)
  | t :: ts =>
    let r := sampleOnce read P ts
    (read t P :: r.1, r.2 + 1)

/-- C7: for a fixed property P and an ordered input list, the sampler
queries the provider exactly once per sample, and produces a parallel
result list of exactly the input's length whose i-th entry is the
property read back after setting the i-th input together with P. -/
theorem sampleOnce_contract (read : ℚ → ℚ → ℚ) (P : ℚ) (Ts : List ℚ) :
    (sampleOnce read P Ts).2 = Ts.length ∧
    (sampleOnce read P Ts).1.length = Ts.length ∧
    ∀ i, i < Ts.length →
      (sampleOnce read P Ts).1.getD i 0 = read (Ts.getD i 0) P := by
  induction Ts with
  | nil =>
    exact ⟨rfl, rfl, fun i hi => absurd hi (Nat.not_lt_zero i)⟩
  | cons t ts ih =>
    refine ⟨?_, ?_, ?_⟩
    · rw [sampleOnce]
      simpa using ih.1
    · rw [sampleOnce]
      simpa using ih.2.1
    · intro i hi
      cases i with
      | zero => rfl
      | succ j =>
        have hj : j < ts.length := Nat.lt_of_succ_lt_succ hi
        exact ih.2.2 j hj

/-- Witness for C7: sampling the two inputs 3 and 4 at fixed P = 2 with
the provider reading back t + P makes exactly 2 queries and the entry at
index 0 is 3 + 2 = 5. -/
theorem sampleOnce_contract_witness :
    (sampleOnce (fun t p => t + p) 2 [3, 4]).2 = 2 ∧
    (sampleOnce (fun t p => t + p) 2 [3, 4]).1.getD 0 0 = 5 := by
  have h := sampleOnce_contract (fun t p => t + p) 2 [3, 4]
  refine ⟨h.1, ?_⟩
  have h0 := h.2.2 0 (by norm_num)
  rw [h0]
  norm_num

/-- A property-pair setting on the substance handle; the pairs the
notebook uses are (T,P), (P,x), (T,x), (T,v), (P,v). -/
inductive SetOp where
  | TP (t p : ℚ)
  | PX (p x : ℚ)
  | TX (t x : ℚ)
  | TV (t v : ℚ)
  | PV (p v : ℚ)

/-- Modelled from the spec: the reused substance handle of the Property
Provider (the external Cantera `Water` object, absent from the
repository) holds exactly one state at a time; the state is carried by
its density, from which derived properties are computed rather than
stored independently. -/
structure Handle where
  density : ℚ

/-- Specific volume read from the handle: the notebook's cell verifies
that `w.v` equals `1/w.density`, and its prose fixes v = 1/ρ. -/
def Handle.v (h : Handle) : ℚ := 1 / h.density

/-- Modelled from the spec: setting a property pair overwrites the
handle's previous state with the one the Property Provider computes for
that pair (`densityOf` is the provider's density response). -/
def Handle.setPair (h : Handle) (densityOf : SetOp → ℚ) (op : SetOp) :
    Handle :=
  ⟨densityOf op⟩

/-- Running a sequence of property settings on the handle, one at a
time, as the notebook cells do. -/
def runOps (densityOf : SetOp → ℚ) (h : Handle) : List SetOp → Handle
  | [] => h
  | op :: ops => runOps densityOf (h.setPair densityOf op) ops

/-- C8: with a Property Provider returning positive densities, after any
sequence of property-pair settings the specific volume read from the
handle is exactly the inverse of its density, and their product is 1. -/
theorem handle_v_inv_density (densityOf : SetOp → ℚ)
    (hpos : ∀ op, 0 < densityOf op) (h0 : Handle) (hd : 0 < h0.density)
    (ops : List SetOp) :
    (runOps densityOf h0 ops).v = 1 / (runOps densityOf h0 ops).density ∧
    (runOps densityOf h0 ops).v * (runOps densityOf h0 ops).density = 1 := by
  have hpos2 : 0 < (runOps densityOf h0 ops).density := by
    induction ops generalizing h0 with
    | nil => exact hd
    | cons op ops ih =>
      rw [runOps]
      exact ih (h0.setPair densityOf op) (hpos op)
  refine ⟨rfl, ?_⟩
  rw [Handle.v]
  field_simp

/-- Witness for C8: a provider answering density 2 to every query, after
one (T,P) setting, gives v·density = 1. -/
theorem handle_v_inv_density_witness :
    (runOps (fun _ => 2) ⟨1⟩ [SetOp.TP 300 101325]).v *
      (runOps (fun _ => 2) ⟨1⟩ [SetOp.TP 300 101325]).density = 1 :=
  (handle_v_inv_density (fun _ => 2) (fun _ => by norm_num) ⟨1⟩
    (by norm_num) [SetOp.TP 300 101325]).2

/-- numpy.linspace with endpoint included: n evenly spaced values from a
to b, the i-th being a + i (b - a)/(n - 1). -/
def linspace (a b : ℚ) (n : Nat) : List ℚ :=
  (List.range n).map (fun i : Nat => a + (i : ℚ) * (b - a) / ((n : ℚ) - 1))

/-- The temperature grid of Tv_vapor_dome:
`np.linspace(15+273.15, 0.9999*Tcrit)` with numpy's default 50 points. -/
def domeGrid (Tcrit : ℚ) : List ℚ :=
  linspace (15 + 273.15) (0.9999 * Tcrit) 50

/-- C9: whenever the critical temperature is positive and at least the
grid start (true of water's 647.096 K), every temperature the
Tv_vapor_dome grid samples lies in [15 C, 0.9999 Tcrit], hence strictly
below the critical temperature — so every quality-0 and quality-1
saturation query it issues is strictly below the critical point. -/
theorem domeGrid_below_crit (Tcrit : ℚ) (hpos : 0 < Tcrit)
    (hle : 15 + 273.15 ≤ 0.9999 * Tcrit) :
    ∀ i, i < 50 →
      15 + 273.15 ≤ (domeGrid Tcrit).getD i 0 ∧
      (domeGrid Tcrit).getD i 0 ≤ 0.9999 * Tcrit ∧
      (domeGrid Tcrit).getD i 0 < Tcrit := by
  intro i hi
  have hval : (domeGrid Tcrit).getD i 0 =
      (15 + 273.15) + i * (0.9999 * Tcrit - (15 + 273.15)) / 49 := by
    rw [domeGrid, linspace, List.getD_eq_getElem?_getD,
      List.getElem?_map, List.getElem?_range hi]
    norm_num
  have hcast : (i : ℚ) ≤ 49 := by
    exact_mod_cast Nat.lt_succ_iff.mp hi
  have hc : (0:ℚ) ≤ 0.9999 * Tcrit - (15 + 273.15) := by linarith
  have hnum : (0:ℚ) ≤ (i : ℚ) * (0.9999 * Tcrit - (15 + 273.15)) :=
    mul_nonneg (Nat.cast_nonneg i) hc
  have hup : (i : ℚ) * (0.9999 * Tcrit - (15 + 273.15)) ≤
      49 * (0.9999 * Tcrit - (15 + 273.15)) :=
    mul_le_mul_of_nonneg_right hcast hc
  have hdiv : (0:ℚ) ≤ (i : ℚ) * (0.9999 * Tcrit - (15 + 273.15)) / 49 :=
    div_nonneg hnum (by norm_num)
  have hup2 : (i : ℚ) * (0.9999 * Tcrit - (15 + 273.15)) / 49 ≤
      0.9999 * Tcrit - (15 + 273.15) := by
    rw [div_le_iff₀ (by norm_num : (0:ℚ) < 49)]
    linarith
  rw [hval]
  refine ⟨by linarith, by linarith, by linarith⟩

/-- Witness for C9: water's critical temperature 647.096 K is positive
and above the grid start, and the grid's first sample, 288.15 K, lies in
the range and below the critical temperature. -/
theorem domeGrid_below_crit_witness :
    15 + 273.15 ≤ (domeGrid 647.096).getD 0 0 ∧
    (domeGrid 647.096).getD 0 0 ≤ 0.9999 * 647.096 ∧
    (domeGrid 647.096).getD 0 0 < 647.096 :=
  domeGrid_below_crit 647.096 (by norm_num) (by norm_num) 0 (by norm_num)

/-- The isobar-plotting loop body starting at sample index i with fuel
for n more samples: the i-th volume sample is queried (`w.PV = P,
v_array[i]`), and if the temperature read back exceeds the cutoff the
loop breaks, leaving the rest of the NaN-initialised output untouched;
otherwise the temperature is stored and the loop advances.  `temp i` is
the temperature the Property Provider reads back at the i-th volume
sample; a NaN slot is `none`. -/
def isobarGo (temp : Nat → ℚ) (cutoff : ℚ) : Nat → Nat → List (Option ℚ)
  | _, 0 => []
  | i, n + 1 =>
    if cutoff < temp i then List.replicate (n + 1) none
    else some (temp i) :: isobarGo temp cutoff (i + 1) n

/-- The whole isobar loop over n volume samples (`T_array =
np.full_like(v_array, np.nan)` followed by the break-at-cutoff loop). -/
def isobarSweep (temp : Nat → ℚ) (cutoff : ℚ) (n : Nat) : List (Option ℚ) :=
  isobarGo temp cutoff 0 n

/-- The loop output always has one slot per volume sample. -/
theorem isobarGo_length (temp : Nat → ℚ) (cutoff : ℚ) :
    ∀ n i, (isobarGo temp cutoff i n).length = n := by
  intro n
  induction n with
  | zero => intro i; rfl
  | succ k ih =>
    intro i
    rw [isobarGo]
    split_ifs
    · exact List.length_replicate k.succ none
    · rw [List.length_cons, ih]

/-- Characterization of the loop output from offset i: slot j holds the
sampled temperature when no sample up to j exceeded the cutoff, and
stays NaN as soon as any sample at or before j exceeded it. -/
theorem isobarGo_spec (temp : Nat → ℚ) (cutoff : ℚ) :
    ∀ n i j, j < n →
      ((∀ m, m ≤ j → temp (i + m) ≤ cutoff) →
        (isobarGo temp cutoff i n).getD j none = some (temp (i + j))) ∧
      ((∃ m, m ≤ j ∧ cutoff < temp (i + m)) →
        (isobarGo temp cutoff i n).getD j none = none) := by
  intro n
  induction n with
  | zero => intro i j hj; exact absurd hj (Nat.not_lt_zero j)
  | succ k ih =>
    intro i j hj
    by_cases hb : cutoff < temp i
    · constructor
      · intro hall
        have h0 : temp (i + 0) ≤ cutoff := hall 0 (Nat.zero_le j)
        rw [Nat.add_zero] at h0
        exact absurd hb (not_lt.mpr h0)
      · intro _
        rw [isobarGo, if_pos hb]
        rcases Nat.lt_or_ge j (k + 1) with hlt | hge
        · rw [List.getD_eq_getElem?_getD, List.getElem?_replicate,
            if_pos hlt]
          rfl
        · rw [List.getD_eq_getElem?_getD, List.getElem?_replicate,
            if_neg (Nat.not_lt.mpr hge)]
          rfl
    · have hb2 : temp i ≤ cutoff := not_lt.mp hb
      rw [isobarGo, if_neg hb]
      cases j with
      | zero =>
        constructor
        · intro _
          rw [Nat.add_zero]
          rfl
        · rintro ⟨m, hm, hgt⟩
          rw [Nat.le_zero.mp hm, Nat.add_zero] at hgt
          exact absurd hgt (not_lt.mpr hb2)
      | succ jj =>
        have hjj : jj < k := Nat.lt_of_succ_lt_succ hj
        have ihx := ih (i + 1) jj hjj
        have hidx : ∀ m : Nat, i + 1 + m = i + (m + 1) := by
          intro m; omega
        constructor
        · intro hall
          have hall2 : ∀ m, m ≤ jj → temp (i + 1 + m) ≤ cutoff := by
            intro m hm
            rw [hidx m]
            exact hall (m + 1) (Nat.succ_le_succ hm)
          have hr := ihx.1 hall2
          rw [List.getD_cons_succ, hr, hidx jj]
        · rintro ⟨m, hm, hgt⟩
          cases m with
          | zero =>
            rw [Nat.add_zero] at hgt
            exact absurd hgt (not_lt.mpr hb2)
          | succ mm =>
            have hmm : mm ≤ jj := Nat.le_of_succ_le_succ hm
            rw [← hidx mm] at hgt
            have hr := ihx.2 ⟨mm, hmm, hgt⟩
            rw [List.getD_cons_succ, hr]

/-- C10: the isobar loop output has one slot per volume sample, and the
j-th slot holds the sampled temperature (which then does not exceed the
cutoff) when no sample up to j exceeded the cutoff, and remains NaN from
the first over-cutoff sample onward — the sweep is truncated, not
per-sample skipped. -/
theorem isobarSweep_char (temp : Nat → ℚ) (cutoff : ℚ) (n : Nat) :
    (isobarSweep temp cutoff n).length = n ∧
    ∀ j, j < n →
      ((∀ m, m ≤ j → temp m ≤ cutoff) →
        (isobarSweep temp cutoff n).getD j none = some (temp j)) ∧
      ((∃ m, m ≤ j ∧ cutoff < temp m) →
        (isobarSweep temp cutoff n).getD j none = none) := by
  refine ⟨isobarGo_length temp cutoff n 0, ?_⟩
  intro j hj
  have h := isobarGo_spec temp cutoff n 0 j hj
  constructor
  · intro hall
    have hr := h.1 (fun m hm => by rw [Nat.zero_add]; exact hall m hm)
    rw [Nat.zero_add] at hr
    exact hr
  · rintro ⟨m, hm, hgt⟩
    exact h.2 ⟨m, hm, by rw [Nat.zero_add]; exact hgt⟩

/-- Witness for C10: sampling temperatures 0, 1, 2, ... with cutoff 1
over three samples, the slot after the first over-cutoff sample (index
2) remains NaN. -/
theorem isobarSweep_char_witness :
    (isobarSweep (fun i => (i : ℚ)) 1 3).getD 2 none = none := by
  have h := (isobarSweep_char (fun i => (i : ℚ)) 1 3).2 2 (by norm_num)
  exact h.2 ⟨2, Nat.le_refl 2, by norm_num⟩
